import Mathlib

/-!
Verification of the asynchronous job-execution core of `src/api/index.js`:
the `exec` process runner (subprocess with timeout-based cancellation) and
the job registry (`launchJob` plus the `/api/job/:id` poll handler).

JavaScript platform primitives are embedded explicitly:
a promise settles at most once (`resolve`/`reject` are no-ops once settled),
a cleared timer never fires, `await` of a non-promise yields the value
itself, `Map.get` of an absent key yields `undefined`, and template-literal
evaluation of an identifier that is not in scope throws a `ReferenceError`.
-/

/-- Settlement state of a JavaScript promise whose value is a string. -/
inductive PromiseState where
  | pending
  | resolved (value : String)
  | rejected (message : String)
deriving DecidableEq, Repr

/-- JS `resolve(v)`: settles a pending promise, no-op on a settled one. -/
def settleResolve (p : PromiseState) (v : String) : PromiseState :=
  match p with
  | PromiseState.pending => PromiseState.resolved v
  | s => s

/-- JS `reject(e)`: settles a pending promise, no-op on a settled one. -/
def settleReject (p : PromiseState) (e : String) : PromiseState :=
  match p with
  | PromiseState.pending => PromiseState.rejected e
  | s => s

/-- Terminal outcome of a pending operation. -/
inductive Settlement where
  | succeeded (value : String)
  | failed (message : String)
deriving DecidableEq, Repr

/-- The settlement reached by a promise, if any. -/
def settledOf : PromiseState → Option Settlement
  | PromiseState.pending => none
  | PromiseState.resolved v => some (Settlement.succeeded v)
  | PromiseState.rejected e => some (Settlement.failed e)

/-- How a JS template literal renders a `close` event's exit code:
`null` (delivered when the child was terminated by a signal) renders as
the string `null`, a number as its decimal form. -/
def jsDisplayCode : Option Int → String
  | none => "null"
  | some n => toString n

/-- JS `a || b` on numbers, for non-negative integers: `0` is falsy. -/
def jsOrNat (a b : Nat) : Nat :=
  if a = 0 then b else a

/-- The `timeout` option after default-parameter resolution:
`function exec(command, args, { timeout = 60_000 } = {})` replaces an
omitted (`undefined`) option with `60_000`. -/
def execResolvedTimeout : Option Nat → Nat
  | none => 60000
  | some t => t

/-- `const timeoutSeconds = timeout || 60;` from the source. -/
def execTimeoutSeconds (t : Option Nat) : Nat :=
  jsOrNat (execResolvedTimeout t) 60

/-- The millisecond delay the source arms the kill timer with:
`setTimeout(..., timeoutSeconds * 1000)`. -/
def execDelayMs (t : Option Nat) : Nat :=
  execTimeoutSeconds t * 1000

/-- Per-invocation configuration of the runner, fixed before the promise
executor runs. -/
structure ExecConfig where
  timeoutSeconds : Nat
deriving DecidableEq, Repr

/-- Configuration produced by `exec` for a given `timeout` option. -/
def execConfig (t : Option Nat) : ExecConfig :=
  ExecConfig.mk (execTimeoutSeconds t)

/-- Rejection message of the timeout path:
`new Error(`Process timed out after ${timeoutSeconds} seconds.`)`. -/
def timeoutMessage (cfg : ExecConfig) : String :=
  "Process timed out after " ++ toString cfg.timeoutSeconds ++ " seconds."

/-- Rejection message of the non-zero-exit path:
`new Error(`Process exited with non-zero code ${code}.`)`. -/
def exitMessage (c : Option Int) : String :=
  "Process exited with non-zero code " ++ jsDisplayCode c ++ "."

/-- Addressee of a `process.kill` call. The source passes `-proc.pid`,
the process-group address of the child. -/
inductive KillTarget where
  | groupOfChild
deriving DecidableEq, Repr

/-- One `process.kill` call recorded with its target and signal name. -/
structure KillAttempt where
  target : KillTarget
  signal : String
deriving DecidableEq, Repr

/-- Console output recorded by the runner. -/
inductive LogEntry where
  | stdoutChunk (data : String)
  | procErrorLog (message : String)
  | killFailureNotice
deriving DecidableEq, Repr

/-- Evaluate the identifiers of a template literal against the names in
scope: the first identifier not in scope throws a `ReferenceError`. -/
def evalTemplateIdents (scope : List String) : List String → Except String Unit
  | [] => Except.ok ()
  | i :: rest =>
      if i ∈ scope then evalTemplateIdents scope rest
      else Except.error ("ReferenceError: " ++ i ++ " is not defined")

/-- Names in scope inside the timeout callback of `exec` (the function
parameters, the executor locals, and the relevant globals). -/
def timerCallbackScope : List String :=
  ["command", "args", "timeout", "timeoutSeconds", "proc", "buffer",
   "resolve", "reject", "exc", "process", "console", "Error",
   "setTimeout", "clearTimeout"]

/-- Identifiers interpolated by the catch-block log template
`Failed to kill process ${-proc.pid} for command:\n${cmd}`. -/
def killLogTemplateIdents : List String :=
  ["proc", "cmd"]

/-- Node `spawn` options. `detached` defaults to `false`: the child runs
in the parent's process group unless `detached: true` is passed. -/
structure SpawnOptions where
  detached : Bool := false
deriving DecidableEq, Repr

/-- The options object the source passes to `spawn(command, args)`: none. -/
def execSpawnOptions : Option SpawnOptions :=
  none

/-- Whether the spawn call detaches the child into its own process group. -/
def effectiveDetached (o : Option SpawnOptions) : Bool :=
  (o.getD (SpawnOptions.mk false)).detached

/-- Modelled platform semantics of `process.kill(-pid, sig)`: a process
group whose id is the child's pid exists exactly when the child was
spawned detached (as a group leader); otherwise the call raises `ESRCH`. -/
def groupKillOutcome (detached : Bool) : Except String Unit :=
  if detached then Except.ok () else Except.error "ESRCH"

/-- Events deliverable to one `exec` invocation. `timerFire` carries
whether the `process.kill` call inside the handler raises. -/
inductive ExecEvent where
  | stdoutData (chunk : String)
  | procError (message : String)
  | close (code : Option Int)
  | timerFire (killFails : Bool)
deriving DecidableEq, Repr

/-- State of one `exec` invocation: the promise, the armed timer, the
accumulated stdout buffer, and the observable side effects. -/
structure ExecState where
  promise : PromiseState
  timerActive : Bool
  buffer : List String
  killAttempts : List KillAttempt
  uncaught : List String
  consoleLog : List LogEntry
deriving DecidableEq, Repr

/-- State right after `exec` spawns the child and arms the timer. -/
def execInit : ExecState :=
  ExecState.mk PromiseState.pending true [] [] [] []

/-- Console entries produced by the catch block of the timeout callback:
the kill-failure log line is emitted only when the kill raised and the
log template evaluated without throwing. -/
def killFailureConsole (killFails : Bool) : List LogEntry :=
  if killFails then
    match evalTemplateIdents timerCallbackScope killLogTemplateIdents with
    | Except.ok _ => [LogEntry.killFailureNotice]
    | Except.error _ => []
  else []

/-- Exceptions escaping the timeout callback: when the kill raised and
the catch block's log template itself throws, that exception propagates
out of the callback (after the `finally` has run). -/
def killFailureUncaught (killFails : Bool) : List String :=
  if killFails then
    match evalTemplateIdents timerCallbackScope killLogTemplateIdents with
    | Except.ok _ => []
    | Except.error e => [e]
  else []

/-- One event handler dispatch, following the source line by line:
`proc.stdout.on('data', ...)` appends the chunk to the buffer and logs it;
`proc.on('error', ...)` only logs; `proc.on('close', ...)` clears the
timer then resolves with the joined buffer on code `0` and rejects
otherwise; the timer callback records the group-addressed SIGKILL,
handles the kill failure in its catch block, and rejects with the
timeout message in its `finally`. A cleared timer never fires, so
`timerFire` on an inactive timer is a no-op. -/
def execStep (cfg : ExecConfig) (s : ExecState) : ExecEvent → ExecState
  | ExecEvent.stdoutData chunk =>
      { s with buffer := s.buffer ++ [chunk],
               consoleLog := s.consoleLog ++ [LogEntry.stdoutChunk chunk] }
  | ExecEvent.procError m =>
      { s with consoleLog := s.consoleLog ++ [LogEntry.procErrorLog m] }
  | ExecEvent.close c =>
      { s with timerActive := false,
               promise :=
                 if c = some 0 then settleResolve s.promise (String.join s.buffer)
                 else settleReject s.promise (exitMessage c) }
  | ExecEvent.timerFire killFails =>
      if s.timerActive then
        { s with timerActive := false,
                 killAttempts := s.killAttempts ++
                   [KillAttempt.mk KillTarget.groupOfChild "SIGKILL"],
                 consoleLog := s.consoleLog ++ killFailureConsole killFails,
                 uncaught := s.uncaught ++ killFailureUncaught killFails,
                 promise := settleReject s.promise (timeoutMessage cfg) }
      else s

/-- Deliver a sequence of events to one `exec` invocation. -/
def execRun (cfg : ExecConfig) (s : ExecState) (evs : List ExecEvent) : ExecState :=
  evs.foldl (execStep cfg) s

/-- JS `Map.get`: the stored value, or `undefined` (here `none`) when the
key is absent. -/
def mapGet {α : Type} : List (Nat × α) → Nat → Option α
  | [], _ => none
  | (k, v) :: rest, key => if k = key then some v else mapGet rest key

/-- JS `Map.set`: overwrite the entry for the key if present, else append. -/
def mapSet {α : Type} : List (Nat × α) → Nat → α → List (Nat × α)
  | [], k, v => [(k, v)]
  | (k0, v0) :: rest, k, v =>
      if k0 = k then (k, v) :: rest else (k0, v0) :: mapSet rest k v

/-- The job registry: `app.locals.jobs` together with the identifier
supply. `uuidv4()` is modelled as a fresh-identifier supply (its platform
contract is a collision-free opaque identifier per call), so `nextId` is
the next unused identifier. -/
structure Registry (α : Type) where
  jobs : List (Nat × α)
  nextId : Nat
deriving DecidableEq, Repr

/-- The registry at process start: `app.locals.jobs = new Map()`. -/
def Registry.init (α : Type) : Registry α :=
  Registry.mk [] 0

/-- `launchJob(promise)` from the source: draw a fresh identifier
(`uuidv4()`), store identifier → promise in the shared map, and return
the identifier. -/
def launchJob {α : Type} (st : Registry α) (p : α) : Nat × Registry α :=
  let jobId := st.nextId
  (jobId, Registry.mk (mapSet st.jobs jobId p) (st.nextId + 1))

/-- Register a batch of pending operations in sequence, collecting the
returned identifiers. -/
def registerAll {α : Type} (st : Registry α) : List α → List Nat × Registry α
  | [] => ([], st)
  | p :: ps =>
      let r1 := launchJob st p
      let r2 := registerAll r1.2 ps
      (r1.1 :: r2.1, r2.2)

/-- Result of `await promise` in the poll handler. -/
inductive AwaitResult where
  | value (v : Option String)
  | thrown (message : String)
  | stillPending
deriving DecidableEq, Repr

/-- JS `await` applied to `app.locals.jobs.get(jobId)`: awaiting
`undefined` (absent key) yields `undefined` itself; awaiting a resolved
promise yields its value; awaiting a rejected promise throws; awaiting a
pending promise suspends the request. -/
def jsAwait : Option PromiseState → AwaitResult
  | none => AwaitResult.value none
  | some PromiseState.pending => AwaitResult.stillPending
  | some (PromiseState.resolved v) => AwaitResult.value (some v)
  | some (PromiseState.rejected e) => AwaitResult.thrown e

/-- Response of the `/api/job/:id` handler. -/
inductive PollOutcome where
  | redirectTo (url : String)
  | jsonFinished (jobId : Nat)
  | jsonError (jobId : Nat) (message : String)
  | suspendedPending
deriving DecidableEq, Repr

/-- Whether a poll response is the error payload
(`status: 'error'` with HTTP 500). -/
def PollOutcome.isErrorPayload : PollOutcome → Bool
  | PollOutcome.jsonError _ _ => true
  | _ => false

/-- The `/api/job/:id` handler from the source: look the identifier up in
the shared map, `await` the result, redirect when the awaited value is
truthy, answer `status: 'finished'` when it is falsy (`undefined` or the
empty string), and answer the error payload when the `await` throws. -/
def pollJobHandler (jobs : List (Nat × PromiseState)) (jobId : Nat) : PollOutcome :=
  match jsAwait (mapGet jobs jobId) with
  | AwaitResult.stillPending => PollOutcome.suspendedPending
  | AwaitResult.thrown e => PollOutcome.jsonError jobId e
  | AwaitResult.value none => PollOutcome.jsonFinished jobId
  | AwaitResult.value (some s) =>
      if s.isEmpty then PollOutcome.jsonFinished jobId
      else PollOutcome.redirectTo s

/-- A registry snapshot with one finished job under identifier `0`. -/
def sampleJobs : List (Nat × PromiseState) :=
  [(0, PromiseState.resolved "/link?fname=doc.epub")]

/-- C1: the claim asserts that a zero or omitted `timeout` behaves like an
explicit 60,000 and arms the kill timer for 60,000 ms. In the source the
default parameter `60_000` survives the `timeout || 60` falsy check and is
then multiplied by 1000 as though it were seconds, so an omitted timeout
(and an explicit 60,000) arms the timer for 60,000,000 ms; only the zero
timeout arms it for 60,000 ms. -/
theorem exec_timeout_units_bug :
    execDelayMs none = 60000000 ∧
    execDelayMs (some 60000) = 60000000 ∧
    execDelayMs (some 0) = 60000 ∧
    execDelayMs none ≠ 60000 := by
  decide

/-- C3: when the timeout fires and the kill raises, the operation does
settle as failed with the timeout message (the `finally` runs), but the
catch block's log template reads the undeclared identifier `cmd` (the
parameter is named `command`), so the logging branch itself throws a
`ReferenceError` that escapes the timeout handler. -/
theorem timeout_kill_failure_logging_bug :
    (execStep (execConfig none) execInit (ExecEvent.timerFire true)).promise =
      PromiseState.rejected (timeoutMessage (execConfig none)) ∧
    (execStep (execConfig none) execInit (ExecEvent.timerFire true)).uncaught =
      ["ReferenceError: cmd is not defined"] ∧
    evalTemplateIdents timerCallbackScope killLogTemplateIdents =
      Except.error "ReferenceError: cmd is not defined" ∧
    "cmd" ∉ timerCallbackScope :=
  ⟨by decide, by decide, rfl, by decide⟩

/-- C4: the claim asserts the child is spawned in its own process group.
The source calls `spawn(command, args)` with no options, so Node's default
`detached: false` applies, the child stays in the parent's process group,
and the group-addressed kill to `-proc.pid` raises `ESRCH` instead of
terminating a group; with `detached: true` it would have reached the
group. -/
theorem spawn_not_detached_bug :
    execSpawnOptions = none ∧
    effectiveDetached execSpawnOptions = false ∧
    groupKillOutcome (effectiveDetached execSpawnOptions) = Except.error "ESRCH" ∧
    groupKillOutcome true = Except.ok () :=
  ⟨rfl, rfl, rfl, rfl⟩

/-- C6: at the failing input `exec` with `timeout: 1` whose timer fires,
the handler does send a SIGKILL addressed to the child's process group
and the operation settles as failed with the message naming the 1 second
actually waited (the armed delay is 1000 ms); but because the spawn was
not detached, no process group with the child's id exists and the kill
raises `ESRCH`, so no process receives the signal. -/
theorem timeout_fire_group_kill_bug :
    (execStep (execConfig (some 1)) execInit (ExecEvent.timerFire true)).killAttempts =
      [KillAttempt.mk KillTarget.groupOfChild "SIGKILL"] ∧
    groupKillOutcome (effectiveDetached execSpawnOptions) = Except.error "ESRCH" ∧
    (execStep (execConfig (some 1)) execInit (ExecEvent.timerFire true)).promise =
      PromiseState.rejected "Process timed out after 1 seconds." ∧
    timeoutMessage (execConfig (some 1)) = "Process timed out after 1 seconds." ∧
    execDelayMs (some 1) = 1 * 1000 :=
  ⟨by decide, rfl, by decide, by decide, by decide⟩

/-- C2 counterexample: identifier `1` was never registered in
`sampleJobs`; the lookup does return the `undefined` sentinel, but the
poll handler answers `status: 'finished'` — a completed-job response,
not the error payload the claim requires. -/
theorem poll_unknown_id_counterexample :
    mapGet sampleJobs 1 = none ∧
    pollJobHandler sampleJobs 1 = PollOutcome.jsonFinished 1 ∧
    (pollJobHandler sampleJobs 1).isErrorPayload = false := by
  decide

/-- A settled promise is unchanged by `resolve`. -/
theorem settleResolve_of_settled (p : PromiseState) (v : String)
    (h : p ≠ PromiseState.pending) : settleResolve p v = p := by
  cases p with
  | pending => exact absurd rfl h
  | resolved w => rfl
  | rejected e => rfl

/-- A settled promise is unchanged by `reject`. -/
theorem settleReject_of_settled (p : PromiseState) (e : String)
    (h : p ≠ PromiseState.pending) : settleReject p e = p := by
  cases p with
  | pending => exact absurd rfl h
  | resolved w => rfl
  | rejected m => rfl

/-- No event handler changes a promise that has already settled. -/
theorem execStep_promise_of_settled (cfg : ExecConfig) (s : ExecState)
    (e : ExecEvent) (h : s.promise ≠ PromiseState.pending) :
    (execStep cfg s e).promise = s.promise := by
  cases e with
  | stdoutData chunk => rfl
  | procError m => rfl
  | close c =>
      by_cases hc : c = some 0 <;>
        simp [execStep, hc, settleResolve_of_settled _ _ h,
              settleReject_of_settled _ _ h]
  | timerFire b =>
      by_cases ht : s.timerActive <;>
        simp [execStep, ht, settleReject_of_settled _ _ h]

/-- No sequence of further events changes a promise that has settled. -/
theorem execRun_promise_of_settled (cfg : ExecConfig) (s : ExecState)
    (evs : List ExecEvent) (h : s.promise ≠ PromiseState.pending) :
    (execRun cfg s evs).promise = s.promise := by
  induction evs generalizing s with
  | nil => rfl
  | cons e rest ih =>
      have hstep := execStep_promise_of_settled cfg s e h
      calc (execRun cfg s (e :: rest)).promise
          = (execRun cfg (execStep cfg s e) rest).promise := rfl
        _ = (execStep cfg s e).promise := ih _ (by rw [hstep]; exact h)
        _ = s.promise := hstep

/-- C5: every pending operation created by `exec` settles at most once
and the settlement is final. Once a run of events has settled the
promise to an outcome, delivering any further events — a late timer
fire, a delayed `close`, more output — leaves the promise (and hence the
outcome) exactly as it was; in particular at most one of the
timeout-kill and normal-exit paths ever takes effect. -/
theorem exec_settles_exactly_once (cfg : ExecConfig)
    (evs extra : List ExecEvent) (out : Settlement)
    (h : settledOf (execRun cfg execInit evs).promise = some out) :
    settledOf (execRun cfg execInit (evs ++ extra)).promise = some out ∧
    (execRun cfg execInit (evs ++ extra)).promise =
      (execRun cfg execInit evs).promise := by
  have hne : (execRun cfg execInit evs).promise ≠ PromiseState.pending := by
    intro hp
    rw [hp] at h
    exact Option.noConfusion h
  have happ : execRun cfg execInit (evs ++ extra) =
      execRun cfg (execRun cfg execInit evs) extra := by
    simp [execRun, List.foldl_append]
  rw [happ, execRun_promise_of_settled cfg _ extra hne]
  exact ⟨h, rfl⟩

/-- Witness for C5: after a successful exit, a late timer-fire delivery
leaves the operation settled as succeeded. -/
theorem exec_settles_exactly_once_witness :
    settledOf (execRun (execConfig none) execInit
        ([ExecEvent.close (some 0)] ++ [ExecEvent.timerFire true])).promise =
      some (Settlement.succeeded "") :=
  (exec_settles_exactly_once (execConfig none) [ExecEvent.close (some 0)]
      [ExecEvent.timerFire true] (Settlement.succeeded "") (by decide)).1

/-- Delivering a sequence of stdout chunks appends them, in arrival
order, to the buffer (and mirrors them to the console log), touching
nothing else. -/
theorem execRun_stdout (cfg : ExecConfig) (s : ExecState) (chunks : List String) :
    execRun cfg s (chunks.map ExecEvent.stdoutData) =
      { s with buffer := s.buffer ++ chunks,
               consoleLog := s.consoleLog ++ chunks.map LogEntry.stdoutChunk } := by
  induction chunks generalizing s with
  | nil => simp only [List.map_nil, List.append_nil]; rfl
  | cons c cs ih =>
      have hstep : execRun cfg s ((c :: cs).map ExecEvent.stdoutData) =
          execRun cfg (execStep cfg s (ExecEvent.stdoutData c))
            (cs.map ExecEvent.stdoutData) := rfl
      rw [hstep, ih]
      simp [execStep]

/-- C7: when the process exits first with code `0`, the timer is
cancelled (a subsequent timer fire is a no-op), and the operation
settles as succeeded with the accumulated stdout chunks concatenated in
arrival order with no separators. -/
theorem close_zero_resolves_concat (cfg : ExecConfig) (chunks : List String) (b : Bool) :
    (execRun cfg execInit
        (chunks.map ExecEvent.stdoutData ++ [ExecEvent.close (some 0)])).promise =
      PromiseState.resolved (String.join chunks) ∧
    (execRun cfg execInit
        (chunks.map ExecEvent.stdoutData ++ [ExecEvent.close (some 0)])).timerActive =
      false ∧
    execStep cfg
        (execRun cfg execInit
          (chunks.map ExecEvent.stdoutData ++ [ExecEvent.close (some 0)]))
        (ExecEvent.timerFire b) =
      execRun cfg execInit
        (chunks.map ExecEvent.stdoutData ++ [ExecEvent.close (some 0)]) := by
  have happ : execRun cfg execInit
      (chunks.map ExecEvent.stdoutData ++ [ExecEvent.close (some 0)]) =
      execStep cfg (execRun cfg execInit (chunks.map ExecEvent.stdoutData))
        (ExecEvent.close (some 0)) := by
    simp [execRun, List.foldl_append]
  rw [happ, execRun_stdout]
  refine ⟨by simp [execStep, execInit, settleResolve], by simp [execStep], ?_⟩
  simp [execStep]

/-- C7 instance: two chunks `hello` then `world` concatenate to exactly
`helloworld`. -/
theorem close_zero_resolves_concat_example :
    (execRun (execConfig none) execInit
        ([ExecEvent.stdoutData "hello", ExecEvent.stdoutData "world",
          ExecEvent.close (some 0)])).promise =
      PromiseState.resolved "helloworld" := by
  decide

/-- The character data of a string concatenation. -/
theorem string_data_append (a b : String) : (a ++ b).data = a.data ++ b.data :=
  rfl

/-- A non-zero-exit rejection message is never a timeout rejection
message, whatever the exit code and the configured timeout: the two
differ within their fixed leading words. -/
theorem exitMessage_ne_timeoutMessage (c : Option Int) (cfg : ExecConfig) :
    exitMessage c ≠ timeoutMessage cfg := by
  intro h
  have hd := congrArg String.data h
  simp only [exitMessage, timeoutMessage, string_data_append,
             List.append_assoc] at hd
  have h9 := congrArg (List.take 9) hd
  rw [List.take_append_of_le_length (by decide),
      List.take_append_of_le_length (by decide)] at h9
  exact absurd h9 (by decide)

/-- C8: when the process exits first with a non-zero code, the operation
settles as failed with the message naming that code, and that message is
never the timeout message. -/
theorem close_nonzero_rejects_with_code (cfg : ExecConfig) (s : ExecState)
    (c : Option Int) (hp : s.promise = PromiseState.pending) (hc : c ≠ some 0) :
    (execStep cfg s (ExecEvent.close c)).promise =
      PromiseState.rejected (exitMessage c) ∧
    exitMessage c ≠ timeoutMessage cfg := by
  refine ⟨?_, exitMessage_ne_timeoutMessage c cfg⟩
  simp [execStep, hc, hp, settleReject]

/-- Witness for C8: exit code `3` produces the message naming code `3`,
which is not a timeout message. -/
theorem close_nonzero_rejects_with_code_witness :
    (execStep (execConfig none) execInit (ExecEvent.close (some 3))).promise =
      PromiseState.rejected "Process exited with non-zero code 3." ∧
    "Process exited with non-zero code 3." ≠ timeoutMessage (execConfig none) :=
  close_nonzero_rejects_with_code (execConfig none) execInit (some 3) rfl
    (by decide)

/-- C10: a `close` event delivering a `null` exit code (signal-terminated
child, as after the timeout's SIGKILL) takes the non-zero branch and
rejects with the message rendering the code as `null`; the success branch
is taken exactly when the delivered code is the number `0`. -/
theorem close_null_rejects_null_message (cfg : ExecConfig) (s : ExecState)
    (hp : s.promise = PromiseState.pending) :
    (execStep cfg s (ExecEvent.close none)).promise =
      PromiseState.rejected "Process exited with non-zero code null." ∧
    ∀ c : Option Int,
      ((execStep cfg s (ExecEvent.close c)).promise =
          PromiseState.resolved (String.join s.buffer) ↔ c = some 0) := by
  constructor
  · simp [execStep, hp, settleReject]
    rfl
  · intro c
    by_cases hc : c = some 0
    · simp [execStep, hc, hp, settleResolve]
    · simp [execStep, hc, hp, settleReject]

/-- Witness for C10: from the initial state, a `null`-code close rejects
with the `null` message and is not the success branch. -/
theorem close_null_rejects_null_message_witness :
    (execStep (execConfig none) execInit (ExecEvent.close none)).promise =
      PromiseState.rejected "Process exited with non-zero code null." :=
  (close_null_rejects_null_message (execConfig none) execInit rfl).1

/-- Looking up the key just stored by `Map.set` returns its value. -/
theorem mapGet_mapSet_self {α : Type} (m : List (Nat × α)) (k : Nat) (v : α) :
    mapGet (mapSet m k v) k = some v := by
  induction m with
  | nil => simp [mapSet, mapGet]
  | cons e rest ih =>
      by_cases h : e.1 = k
      · simp [mapSet, h, mapGet]
      · simp [mapSet, h, mapGet, ih]

/-- `Map.set` leaves lookups of every other key unchanged. -/
theorem mapGet_mapSet_ne {α : Type} (m : List (Nat × α)) (k k2 : Nat) (v : α)
    (h : k2 ≠ k) : mapGet (mapSet m k v) k2 = mapGet m k2 := by
  induction m with
  | nil => simp [mapSet, mapGet, h.symm]
  | cons e rest ih =>
      by_cases he : e.1 = k
      · simp [mapSet, he, mapGet, h.symm]
      · simp [mapSet, he, mapGet, ih]

/-- The identifiers handed out by a batch registration are the
consecutive fresh identifiers starting at the registry's supply. -/
theorem registerAll_ids {α : Type} (ps : List α) (st : Registry α) :
    (registerAll st ps).1 = List.range' st.nextId ps.length ∧
    (registerAll st ps).2.nextId = st.nextId + ps.length := by
  induction ps generalizing st with
  | nil => simp [registerAll]
  | cons p ps ih =>
      have h := ih (Registry.mk (mapSet st.jobs st.nextId p) (st.nextId + 1))
      refine ⟨?_, ?_⟩
      · simp [registerAll, launchJob, h.1, List.range'_succ]
      · simp [registerAll, launchJob, h.2]
        omega

/-- Registrations never disturb the entry of an identifier that was
already handed out (every new identifier is fresh). -/
theorem registerAll_preserves_lookup {α : Type} (ps : List α)
    (st : Registry α) (k : Nat) (hk : k < st.nextId) :
    mapGet (registerAll st ps).2.jobs k = mapGet st.jobs k := by
  induction ps generalizing st with
  | nil => rfl
  | cons p ps ih =>
      have h2 := ih (Registry.mk (mapSet st.jobs st.nextId p) (st.nextId + 1))
        (Nat.lt_succ_of_lt hk)
      have h3 : mapGet (mapSet st.jobs st.nextId p) k = mapGet st.jobs k :=
        mapGet_mapSet_ne st.jobs st.nextId k p (Nat.ne_of_lt hk)
      simp [registerAll, launchJob]
      rw [h2] at *
      exact h3

/-- Looking up the identifier returned for the `i`-th registered
operation returns exactly that operation. -/
theorem registerAll_lookup {α : Type} (ps : List α) (st : Registry α)
    (i : Nat) (h : i < ps.length) :
    mapGet (registerAll st ps).2.jobs (st.nextId + i) = some (ps.get ⟨i, h⟩) := by
  induction ps generalizing st i with
  | nil => exact absurd h (Nat.not_lt_zero i)
  | cons p ps ih =>
      cases i with
      | zero =>
          have hpre := registerAll_preserves_lookup ps
            (Registry.mk (mapSet st.jobs st.nextId p) (st.nextId + 1))
            st.nextId (Nat.lt_succ_self st.nextId)
          simp [registerAll, launchJob]
          rw [hpre]
          exact mapGet_mapSet_self st.jobs st.nextId p
      | succ i =>
          have hi : i < ps.length := Nat.lt_of_succ_lt_succ h
          have h2 := ih (Registry.mk (mapSet st.jobs st.nextId p) (st.nextId + 1)) i hi
          have harith : st.nextId + (i + 1) = (st.nextId + 1) + i := by omega
          simp [registerAll, launchJob, harith]
          rw [h2]
          rfl

/-- C9: registering a batch of pending operations from a fresh registry
yields pairwise-distinct identifiers (in fact the consecutive fresh
identifiers), and looking each identifier up returns exactly the
operation that was registered under it. -/
theorem registry_roundtrip {α : Type} (ps : List α) :
    (registerAll (Registry.init α) ps).1 = List.range' 0 ps.length ∧
    (registerAll (Registry.init α) ps).1.Nodup ∧
    ∀ i, (h : i < ps.length) →
      mapGet (registerAll (Registry.init α) ps).2.jobs i = some (ps.get ⟨i, h⟩) := by
  have hids := registerAll_ids ps (Registry.init α)
  refine ⟨hids.1, ?_, ?_⟩
  · rw [hids.1]
    exact List.nodup_range' _ _
  · intro i h
    have := registerAll_lookup ps (Registry.init α) i h
    simpa [Registry.init] using this

/-- Witness for C9: the second of three registered operations is found
again under its own identifier, and the three identifiers are distinct. -/
theorem registry_roundtrip_witness :
    mapGet (registerAll (Registry.init Nat) [10, 20, 30]).2.jobs 1 = some 20 ∧
    (registerAll (Registry.init Nat) [10, 20, 30]).1.Nodup :=
  ⟨(registry_roundtrip [10, 20, 30]).2.2 1 (by decide),
   (registry_roundtrip [10, 20, 30]).2.1⟩

/-- C2 (amended): looking up an identifier that was never registered
returns the `undefined` sentinel — never another job's operation, never
a crash — but the poll handler then answers with the completed-job
response `status: 'finished'`, not with an error payload: awaiting
`undefined` yields `undefined`, which fails the truthiness check and
falls to the `finished` branch. -/
theorem poll_unknown_id_reports_finished (jobs : List (Nat × PromiseState))
    (jobId : Nat) (h : ∀ e ∈ jobs, e.1 ≠ jobId) :
    mapGet jobs jobId = none ∧
    pollJobHandler jobs jobId = PollOutcome.jsonFinished jobId := by
  have hm : mapGet jobs jobId = none := by
    induction jobs with
    | nil => rfl
    | cons e rest ih =>
        have he : e.1 ≠ jobId := h e (List.mem_cons_self e rest)
        simp [mapGet, he]
        exact ih fun x hx => h x (List.mem_cons_of_mem e hx)
  exact ⟨hm, by simp [pollJobHandler, hm, jsAwait]⟩

/-- Witness for C2 (amended): identifier `1` is absent from the sample
registry snapshot and the handler reports it as finished. -/
theorem poll_unknown_id_reports_finished_witness :
    pollJobHandler sampleJobs 1 = PollOutcome.jsonFinished 1 :=
  (poll_unknown_id_reports_finished sampleJobs 1 (by decide)).2
